import Mathlib

/-!
Verification of the Quran citation-QA service against its specification.

Shallow embedding conventions:
  * Python `int` is modelled as `Int`; counts and list positions as `Nat`.
  * Python `float` similarity scores and thresholds are modelled as `Rat`
    (the code only compares and copies them; the order structure is what
    matters and `Rat` gives it exactly).
  * External subsystems (the FAISS index, the sentence-embedding model,
    the OpenAI chat API, Redis, the SQL database) are modelled as explicit
    inputs: the index response is a list of (score, row-index) hits, the
    chat API response is an `Except String String`, the database is a list
    of rows.  Everything the repository itself computes is translated
    definition-by-definition from the Python source.
  * Fallible code returns `Except`.
-/

/- ### Small string helpers -/

/-- ASCII apostrophe, written via its code point so the character does not
appear literally in the file. -/
def apostrophe : String := (Char.ofNat 39).toString

/-- The literal refusal sentence from `llm_explainer.py`
("The Qur-an does not explicitly address this question." with an
apostrophe in place of the dash). -/
def noAnswerText : String :=
  "The Qur" ++ apostrophe ++ "an does not explicitly address this question."

/-- Python `str.strip()` with no argument: remove whitespace from both
ends (structurally recursive so the kernel can evaluate it; Lean's
built-in `String.trim` is extensionally the same but is defined by
well-founded position recursion). -/
def pyStrip (s : String) : String :=
  String.mk (((s.data.dropWhile Char.isWhitespace).reverse.dropWhile
    Char.isWhitespace).reverse)

/-- Python `str.split(sep)` for a one-character separator, over the
character list. -/
def pySplitChars (sep : Char) : List Char → List Char → List (List Char)
  | [], acc => [acc.reverse]
  | c :: rest, acc =>
      if c = sep then acc.reverse :: pySplitChars sep rest []
      else pySplitChars sep rest (c :: acc)

/-- Python `str.split(sep)` for a one-character separator. -/
def pySplit (sep : Char) (s : String) : List String :=
  (pySplitChars sep s.data []).map String.mk

/-- Python `str.replace(pat, repl)` for a non-empty pattern: replace
non-overlapping occurrences left to right.  Structural fuel (the
remaining length bounds the number of steps because every step consumes
at least one character). -/
def pyReplaceF (pat repl : List Char) : Nat → List Char → List Char
  | _, [] => []
  | 0, l => l
  | f + 1, c :: rest =>
      if pat.isPrefixOf (c :: rest) then
        repl ++ pyReplaceF pat repl f ((c :: rest).drop pat.length)
      else c :: pyReplaceF pat repl f rest

/-- Python `str.replace(pat, repl)` for a non-empty pattern. -/
def pyReplace (s pat repl : String) : String :=
  String.mk (pyReplaceF pat.data repl.data s.data.length s.data)

/-- UTF-8 byte length of a string, as Python `len(s.encode())` computes it. -/
def utf8ByteLength (s : String) : Nat := (s.data.map Char.utf8Size).sum

/-- UTF-8 bytes of a string (as naturals), as Python `s.encode()` yields. -/
def strBytes (s : String) : List Nat :=
  s.data.flatMap (fun c => (String.utf8EncodeChar c).map UInt8.toNat)

/- ### Data model of the retrieval engine (quran_retrieval2.py) -/

/-- One metadata record, as stored in `quran_metadata.json`: the ayah-level
dictionary built by `QuranRetrieval._load_quran_data` minus
`searchable_text` (see `_save_metadata`). -/
structure Verse where
  surah_number : Int
  surah_name_english : String
  total_ayahs : Int
  ayah_number : Int
  text_simple : String
  translation_en_yusufali : String
deriving DecidableEq

/-- A search result: `metadata[idx].copy()` with a `score` key added
(`QuranRetrieval.search`). -/
structure ScoredVerse where
  surah_number : Int
  surah_name_english : String
  total_ayahs : Int
  ayah_number : Int
  text_simple : String
  translation_en_yusufali : String
  score : Rat
deriving DecidableEq

/-- A context entry built by `QuranRetrieval.add_context_window`:
the five fields copied there (note: no `total_ayahs`, no score). -/
structure CtxVerse where
  surah_number : Int
  surah_name_english : String
  ayah_number : Int
  text_simple : String
  translation_en_yusufali : String
deriving DecidableEq

/-- A search result with the `context` key attached
(`QuranRetrieval.add_context_window`). -/
structure ResultWithContext where
  surah_number : Int
  surah_name_english : String
  total_ayahs : Int
  ayah_number : Int
  text_simple : String
  translation_en_yusufali : String
  score : Rat
  context : List CtxVerse
deriving DecidableEq

/-- A serializable result, as built in
`QuranRetrieval.retrieve_citation_bundle`: the explicit key set written
there (`total_ayahs` is dropped; `int`/`str`/`float` coercions are
identities in this model because the fields already carry native types). -/
structure SerializableResult where
  surah_number : Int
  surah_name_english : String
  ayah_number : Int
  text_simple : String
  translation_en_yusufali : String
  score : Rat
  context : List CtxVerse
deriving DecidableEq

/-- The citation bundle returned by `QuranRetrieval.retrieve_citation_bundle`. -/
structure CitationBundle where
  query : String
  k : Int
  score_threshold : Option Rat
  has_answer : Bool
  results : List SerializableResult
deriving DecidableEq

/-- Building the raw result list from the index response
(`QuranRetrieval.search`, the `for score, idx in zip(...)` loop):
hits with an index outside `metadata` bounds are skipped
(`if 0 <= idx < len(metadata)`), each kept hit is the metadata row copied
with the score attached. -/
def hitToResult (metadata : List Verse) (h : Rat × Int) : Option ScoredVerse :=
  if hlt : 0 ≤ h.2 ∧ h.2.toNat < metadata.length then
    let v := metadata.get ⟨h.2.toNat, hlt.2⟩
    some ⟨v.surah_number, v.surah_name_english, v.total_ayahs, v.ayah_number,
          v.text_simple, v.translation_en_yusufali, h.1⟩
  else none

/-- The raw result list of `QuranRetrieval.search`. -/
def buildResults (metadata : List Verse) (hits : List (Rat × Int)) :
    List ScoredVerse :=
  hits.filterMap (hitToResult metadata)

/-- `QuranRetrieval.search`.  The embedding model and the FAISS index are
external; the model takes the index response `hits` (the top-k scores and
row indices FAISS would return for the encoded query) as an input.  The
code of the function itself - the blank-query guard, result construction
and threshold filtering - is translated line by line. -/
def search (metadata : List Verse) (hits : List (Rat × Int)) (query : String)
    (score_threshold : Option Rat) (return_no_answer : Bool) :
    List ScoredVerse :=
  if query = "" ∨ pyStrip query = "" then []
  else
    let results := buildResults metadata hits
    match score_threshold with
    | none => results
    | some t =>
      let filtered := results.filter (fun r => t ≤ r.score)
      if 1 ≤ filtered.length then filtered
      else if return_no_answer then [] else results

/-- Projection used for context entries in
`QuranRetrieval.add_context_window` (the dict literal built per context
verse). -/
def toCtxVerse (v : Verse) : CtxVerse :=
  ⟨v.surah_number, v.surah_name_english, v.ayah_number, v.text_simple,
   v.translation_en_yusufali⟩

/-- `QuranRetrieval.add_context_window`: collect same-surah verses with
ayah number in `[max(1, a - window), min(max ayah present, a + window)]`,
exclude the result verse itself, sort ascending by ayah number, and return
a copy of the input with the context attached.  Python list `sort` is a
stable sort by the key; `List.insertionSort` with the non-strict key
order is also stable, hence computes the same list. -/
def add_context_window (metadata : List Verse) (result : ScoredVerse)
    (window : Int) : ResultWithContext :=
  let surah_ayahs := metadata.filter (fun v => v.surah_number = result.surah_number)
  let min_ayah : Int := max 1 (result.ayah_number - window)
  let max_ayah : Int :=
    min (((surah_ayahs.map (fun v => v.ayah_number)).max?).getD result.ayah_number)
        (result.ayah_number + window)
  let context :=
    (surah_ayahs.filter (fun v =>
        min_ayah ≤ v.ayah_number ∧ v.ayah_number ≤ max_ayah ∧
        v.ayah_number ≠ result.ayah_number)).map toCtxVerse
  let context :=
    context.insertionSort (fun a b => a.ayah_number ≤ b.ayah_number)
  ⟨result.surah_number, result.surah_name_english, result.total_ayahs,
   result.ayah_number, result.text_simple, result.translation_en_yusufali,
   result.score, context⟩

/-- `QuranRetrieval.search_with_context`: search (with
`return_no_answer=True`) then attach a context window to every result. -/
def search_with_context (metadata : List Verse) (hits : List (Rat × Int))
    (query : String) (score_threshold : Option Rat) (window : Int) :
    List ResultWithContext :=
  (search metadata hits query score_threshold true).map
    (fun r => add_context_window metadata r window)

/-- Serialization step of `QuranRetrieval.retrieve_citation_bundle`
(`total_ayahs` is not among the keys written there). -/
def toSerializable (r : ResultWithContext) : SerializableResult :=
  ⟨r.surah_number, r.surah_name_english, r.ayah_number, r.text_simple,
   r.translation_en_yusufali, r.score, r.context⟩

/-- `QuranRetrieval.retrieve_citation_bundle`. -/
def retrieve_citation_bundle (metadata : List Verse) (hits : List (Rat × Int))
    (query : String) (k : Int) (score_threshold : Option Rat) (window : Int) :
    CitationBundle :=
  let results :=
    (search_with_context metadata hits query score_threshold window).map
      toSerializable
  ⟨query, k, score_threshold, decide (0 < results.length), results⟩

/- ### LLM explanation layer (llm_explainer.py) -/

/-- `QuranLLMExplainer.explain`.  The outbound OpenAI call together with
the extraction `response.choices[0].message.content` is external and is
modelled by the input `apiResult` (`Except.error e` models any exception
raised inside the `try` block by the client, carrying `str(e)`).  The
function returns the produced string paired with a flag recording whether
the outbound call was performed. -/
def explain (bundle : CitationBundle) (apiResult : Except String String) :
    String × Bool :=
  if bundle.has_answer = false ∨ bundle.results = [] then
    (noAnswerText, false)
  else
    match apiResult with
    | Except.ok content =>
        (pyReplace (pyReplace (pyStrip content) "**" "") "*" "", true)
    | Except.error e => ("Error generating explanation: " ++ e, true)

/- ### Configuration (backend/app/config.py) -/

/-- One `if origin not in origins: origins.append(origin)` step of
`Settings.cors_origins_list`. -/
def corsAppendIfAbsent (o : String) (origins : List String) : List String :=
  if o ∈ origins then origins else origins ++ [o]

/-- The two unconditional conditional-append steps at the end of
`Settings.cors_origins_list`, in source order (first
`http://localhost:3000`, then `http://127.0.0.1:3000`, the second check
running on the already-extended list). -/
def corsWithDefaults (origins : List String) : List String :=
  corsAppendIfAbsent "http://127.0.0.1:3000"
    (corsAppendIfAbsent "http://localhost:3000" origins)

/-- `Settings.cors_origins_list`: split the configured comma-separated
string, trim entries, drop empties, fall back to the two development
origins when the raw string is empty, and append each of the two
development origins when absent. -/
def cors_origins_list (cors : String) : List String :=
  if cors = "" then ["http://localhost:3000", "http://127.0.0.1:3000"]
  else
    corsWithDefaults (((pySplit ',' cors).map pyStrip).filter (fun s => s ≠ ""))

/-- The parsed configured entries (split, trim, drop empties), before the
two development origins are appended; empty configuration parses to no
entries.  Used to state what `cors_origins_list` preserves. -/
def corsParsedEntries (cors : String) : List String :=
  if cors = "" then []
  else ((pySplit ',' cors).map pyStrip).filter (fun s => s ≠ "")

/- ### Request contracts (backend/app/schemas.py) -/

/-- `UserCreate.validate_password`: reject passwords of fewer than 6
characters, then passwords whose UTF-8 encoding exceeds 72 bytes; accept
otherwise (a raised `ValueError` is modelled as `Except.error` carrying
the message). -/
def validate_password (v : String) : Except String String :=
  if v.length < 6 then
    Except.error "Password must be at least 6 characters long"
  else if 72 < utf8ByteLength v then
    Except.error "Password is too long (maximum 72 bytes/characters)"
  else
    Except.ok v

/- ### Backend request/response shapes (backend/app/schemas.py, models.py) -/

/-- `QueryRequest` schema. -/
structure QueryRequest where
  query : String
  k : Int
  score_threshold : Option Rat
  window : Int
deriving DecidableEq

/-- `QueryResponse` schema; also the shape of a stored cache entry
(`cache_service.set` stores exactly this dictionary, so a cache hit parses
back to it; `cached_result.get` defaults are represented by the `Option`
field). -/
structure QueryResponse where
  query : String
  answer : String
  citations : List SerializableResult
  has_answer : Bool
  processing_time : Option Rat
deriving DecidableEq

/-- Result dictionary of `QuranService.answer_query`
(backend/app/services/quran_service.py): always carries a processing
time. -/
structure OrchestrationResult where
  query : String
  answer : String
  citations : List SerializableResult
  has_answer : Bool
  processing_time : Rat
deriving DecidableEq

/-- A `QueryHistory` row (backend/app/models.py) as the insert path
populates it; `created_at` is the server-assigned timestamp. -/
structure HistoryRow where
  user_id : Option Int
  query : String
  answer : String
  citations : Option String
  created_at : Int
deriving DecidableEq

/-- A raised `fastapi.HTTPException`. -/
structure ApiError where
  status_code : Nat
  detail : String
deriving DecidableEq

/-- Modelled from the spec: `json.dumps` of the citation list (the `json`
standard library is external to the repository).  The claims only use
that some serialization of the citations is stored in the history row;
this rendering stands in for the JSON text. -/
def citationsDump (cs : List SerializableResult) : String :=
  String.intercalate "; " (cs.map (fun c =>
    c.surah_name_english ++ " " ++ toString c.surah_number ++ ":" ++
      toString c.ayah_number))

/- ### Query endpoints (backend/app/routers/queries.py) -/

/-- `query_quran` (POST /query).  External inputs: `cached` is what
`cache_service.get` returned for the request tuple (a stored entry is the
non-empty response dictionary, so Python truthiness coincides with
presence), `orch` is the outcome of `quran_service.answer_query`
(`Except.error e` models any exception, carrying `str(e)`),
`current_user` is the identity resolved by `get_current_user_optional`
(modelled from the spec: the auth module is absent from the reviewed
source; it yields a user for a valid token and `none` otherwise), and
`db`/`createdAt` model the database session.  Returns the HTTP outcome,
the database rows after the request, and a flag recording whether the
orchestration service (retrieval plus language model) was invoked. -/
def query_quran (req : QueryRequest) (cached : Option QueryResponse)
    (orch : Except String OrchestrationResult) (current_user : Option Int)
    (db : List HistoryRow) (createdAt : Int) :
    Except ApiError QueryResponse × List HistoryRow × Bool :=
  match cached with
  | some c =>
      (Except.ok ⟨c.query, c.answer, c.citations, c.has_answer,
        c.processing_time⟩, db, false)
  | none =>
      match orch with
      | Except.error e =>
          (Except.error ⟨500, "Error processing query: " ++ e⟩, db, true)
      | Except.ok r =>
          let resp : QueryResponse :=
            ⟨r.query, r.answer, r.citations, r.has_answer,
             some r.processing_time⟩
          match current_user with
          | some uid =>
              (Except.ok resp,
               db ++ [⟨some uid, req.query, r.answer,
                       some (citationsDump r.citations), createdAt⟩],
               true)
          | none => (Except.ok resp, db, true)

/-- `get_query_history` (GET /history).  `current_user` is the identity
from `get_current_user_optional` (modelled from the spec as for
`query_quran`).  The SQLAlchemy chain filter / order_by desc / offset /
limit over the `query_history` table is modelled by the corresponding
list operations over the rows. -/
def get_query_history (current_user : Option Int) (db : List HistoryRow)
    (skip limit : Nat) : Except ApiError (List HistoryRow) :=
  match current_user with
  | none => Except.error ⟨401, "Authentication required"⟩
  | some uid =>
      Except.ok (((((db.filter (fun r => r.user_id = some uid)).insertionSort
        (fun a b => b.created_at ≤ a.created_at)).drop skip).take limit))

/- ### MD5 (hashlib.md5, RFC 1321), used by the cache service -/

/-- Per-round left-rotation amounts of MD5. -/
def mdS : List Nat :=
  [7, 12, 17, 22, 7, 12, 17, 22, 7, 12, 17, 22, 7, 12, 17, 22,
   5, 9, 14, 20, 5, 9, 14, 20, 5, 9, 14, 20, 5, 9, 14, 20,
   4, 11, 16, 23, 4, 11, 16, 23, 4, 11, 16, 23, 4, 11, 16, 23,
   6, 10, 15, 21, 6, 10, 15, 21, 6, 10, 15, 21, 6, 10, 15, 21]

/-- MD5 sine-derived round constants. -/
def mdK : List Nat :=
  [0xd76aa478, 0xe8c7b756, 0x242070db, 0xc1bdceee,
   0xf57c0faf, 0x4787c62a, 0xa8304613, 0xfd469501,
   0x698098d8, 0x8b44f7af, 0xffff5bb1, 0x895cd7be,
   0x6b901122, 0xfd987193, 0xa679438e, 0x49b40821,
   0xf61e2562, 0xc040b340, 0x265e5a51, 0xe9b6c7aa,
   0xd62f105d, 0x02441453, 0xd8a1e681, 0xe7d3fbc8,
   0x21e1cde6, 0xc33707d6, 0xf4d50d87, 0x455a14ed,
   0xa9e3e905, 0xfcefa3f8, 0x676f02d9, 0x8d2a4c8a,
   0xfffa3942, 0x8771f681, 0x6d9d6122, 0xfde5380c,
   0xa4beea44, 0x4bdecfa9, 0xf6bb4b60, 0xbebfbc70,
   0x289b7ec6, 0xeaa127fa, 0xd4ef3085, 0x04881d05,
   0xd9d4d039, 0xe6db99e5, 0x1fa27cf8, 0xc4ac5665,
   0xf4292244, 0x432aff97, 0xab9423a7, 0xfc93a039,
   0x655b59c3, 0x8f0ccc92, 0xffeff47d, 0x85845dd1,
   0x6fa87e4f, 0xfe2ce6e0, 0xa3014314, 0x4e0811a1,
   0xf7537e82, 0xbd3af235, 0x2ad7d2bb, 0xeb86d391]

/-- Little-endian byte decomposition of a natural (n bytes). -/
def leBytes : Nat → Nat → List Nat
  | 0, _ => []
  | n + 1, x => x % 256 :: leBytes n (x / 256)

/-- MD5 padding: append 0x80, zero-fill to 56 mod 64, append the 64-bit
little-endian bit length. -/
def md5Pad (msg : List Nat) : List Nat :=
  msg ++ 128 ::
    (List.replicate ((120 - ((msg.length + 1) % 64)) % 64) 0 ++
      leBytes 8 ((8 * msg.length) % 2 ^ 64))

/-- Little-endian 32-bit word i of a 64-byte block. -/
def word32 (block : List Nat) (i : Nat) : Nat :=
  block.getD (4 * i) 0 + 256 * block.getD (4 * i + 1) 0 +
    65536 * block.getD (4 * i + 2) 0 + 16777216 * block.getD (4 * i + 3) 0

/-- 32-bit left rotation. -/
def rotl32 (x s : Nat) : Nat := ((x <<< s) ||| (x >>> (32 - s))) % 4294967296

/-- One of the 64 MD5 operations (round function selection by index). -/
def md5Step (block : List Nat) (st : Nat × Nat × Nat × Nat) (i : Nat) :
    Nat × Nat × Nat × Nat :=
  let A := st.1
  let B := st.2.1
  let C := st.2.2.1
  let D := st.2.2.2
  let FG : Nat × Nat :=
    if i < 16 then ((B &&& C) ||| ((B ^^^ 4294967295) &&& D), i)
    else if i < 32 then ((D &&& B) ||| ((D ^^^ 4294967295) &&& C), (5 * i + 1) % 16)
    else if i < 48 then (B ^^^ C ^^^ D, (3 * i + 5) % 16)
    else (C ^^^ (B ||| (D ^^^ 4294967295)), (7 * i) % 16)
  let tmp := (A + FG.1 + mdK.getD i 0 + word32 block FG.2) % 4294967296
  (D, (B + rotl32 tmp (mdS.getD i 0)) % 4294967296, B, C)

/-- Process one 64-byte block. -/
def md5Chunk (block : List Nat) (st : Nat × Nat × Nat × Nat) :
    Nat × Nat × Nat × Nat :=
  let r := (List.range 64).foldl (md5Step block) st
  ((st.1 + r.1) % 4294967296, (st.2.1 + r.2.1) % 4294967296,
   (st.2.2.1 + r.2.2.1) % 4294967296, (st.2.2.2 + r.2.2.2) % 4294967296)

/-- Fold over all 64-byte blocks, with explicit structural fuel so that the
function reduces inside the kernel; every step consumes at least one byte,
so any fuel of at least `bytes.length` computes the full fold. -/
def md5BlocksF (fuel : Nat) (bytes : List Nat) (st : Nat × Nat × Nat × Nat) :
    Nat × Nat × Nat × Nat :=
  match fuel, bytes with
  | _, [] => st
  | 0, _ => st
  | f + 1, b :: rest =>
      md5BlocksF f ((b :: rest).drop 64) (md5Chunk ((b :: rest).take 64) st)

/-- Fold over all 64-byte blocks. -/
def md5Blocks (bytes : List Nat) (st : Nat × Nat × Nat × Nat) :
    Nat × Nat × Nat × Nat :=
  md5BlocksF bytes.length bytes st

/-- MD5 initial register values. -/
def md5Init : Nat × Nat × Nat × Nat :=
  (0x67452301, 0xefcdab89, 0x98badcfe, 0x10325476)

/-- The four 32-bit result registers of MD5 on a byte message (the final
reduction records the 32-bit register width; the registers already carry
reduced values). -/
def md5Words (msg : List Nat) : Nat × Nat × Nat × Nat :=
  let r := md5Blocks (md5Pad msg) md5Init
  (r.1 % 4294967296, r.2.1 % 4294967296, r.2.2.1 % 4294967296,
   r.2.2.2 % 4294967296)

/-- Two lowercase hex digits of a byte. -/
def hexDigits (b : Nat) : List Char :=
  [Nat.digitChar (b / 16), Nat.digitChar (b % 16)]

/-- The hex digest: the sixteen digest bytes (little-endian per register,
registers in order) in lowercase hex. -/
def md5HexOfWords (ws : Nat × Nat × Nat × Nat) : String :=
  String.mk ((leBytes 4 ws.1 ++ leBytes 4 ws.2.1 ++ leBytes 4 ws.2.2.1 ++
    leBytes 4 ws.2.2.2).flatMap hexDigits)

/-- `hashlib.md5(data).hexdigest()`. -/
def md5Hex (msg : List Nat) : String := md5HexOfWords (md5Words msg)

/- ### Cache key derivation (backend/app/services/cache_service.py) -/

/-- Little-endian decimal digits of a natural, with structural fuel
(any fuel above the value computes all digits; `digitsRev` supplies it). -/
def digitsRevF : Nat → Nat → List Nat
  | 0, _ => []
  | f + 1, n => if n < 10 then [n] else n % 10 :: digitsRevF f (n / 10)

/-- Little-endian decimal digits of a natural (`digitsRev 0 = [0]`). -/
def digitsRev (n : Nat) : List Nat := digitsRevF (n + 1) n

/-- Value of a little-endian digit list; the left inverse of `digitsRev`
used to prove the rendering injective. -/
def digitVal : List Nat → Nat
  | [] => 0
  | d :: ds => d + 10 * digitVal ds

/-- Decimal rendering of a natural, as Python `str` renders it. -/
def natRepr (n : Nat) : List Char := ((digitsRev n).reverse).map Nat.digitChar

/-- Decimal rendering of an integer, as Python `str` renders it. -/
def intRepr (i : Int) : List Char :=
  if i < 0 then '-' :: natRepr (-i).toNat else natRepr i.toNat

/-- Rendering of the `score_threshold` component of the key string:
Python renders `None` as the four letters None and a float by its
shortest decimal form.  The model carries thresholds as rationals and
renders `some q` as numerator/denominator - like Python's float
rendering, an injective rendering of the carried value, which is the
property the key derivation relies on. -/
def thrRepr : Option Rat → List Char
  | none => ['N', 'o', 'n', 'e']
  | some q => intRepr q.num ++ '/' :: natRepr q.den

/-- The colon-joined argument of the hash in
`CacheService._generate_cache_key`: the f-string
query:k:score_threshold:window, as characters. -/
def keyChars (query : String) (k : Int) (score_threshold : Option Rat)
    (window : Int) : List Char :=
  query.data ++ ':' :: (intRepr k ++ ':' :: (thrRepr score_threshold ++
    ':' :: intRepr window))

/-- The key string fed to the hash. -/
def keyString (query : String) (k : Int) (score_threshold : Option Rat)
    (window : Int) : String :=
  String.mk (keyChars query k score_threshold window)

/-- `CacheService._generate_cache_key`: MD5 hex digest of the UTF-8
encoded key string. -/
def generate_cache_key (query : String) (k : Int)
    (score_threshold : Option Rat) (window : Int) : String :=
  md5Hex (strBytes (keyString query k score_threshold window))

/-- The full Redis key built in `CacheService.get` and `CacheService.set`:
the digest under the literal `quran_query:` namespace prefix. -/
def redisCacheKey (query : String) (k : Int) (score_threshold : Option Rat)
    (window : Int) : String :=
  "quran_query:" ++ generate_cache_key query k score_threshold window

/-!
## Theorems

One theorem (plus, where hypotheses occur, one witness) per claim, with
shared helper lemmas and order instances first.
-/

instance instIsTotalCtxAyah :
    IsTotal CtxVerse (fun a b => a.ayah_number ≤ b.ayah_number) :=
  ⟨fun a b => Int.le_total a.ayah_number b.ayah_number⟩

instance instIsTransCtxAyah :
    IsTrans CtxVerse (fun a b => a.ayah_number ≤ b.ayah_number) :=
  ⟨fun _ _ _ hab hbc => le_trans hab hbc⟩

instance instIsTotalHistDesc :
    IsTotal HistoryRow (fun a b => b.created_at ≤ a.created_at) :=
  ⟨fun a b => (Int.le_total a.created_at b.created_at).symm⟩

instance instIsTransHistDesc :
    IsTrans HistoryRow (fun a b => b.created_at ≤ a.created_at) :=
  ⟨fun _ _ _ hab hbc => le_trans hbc hab⟩

/-- Claim C1: for every citation bundle whose `has_answer` field is false
or whose results list is empty, `explain` returns exactly the literal
fallback sentence and performs no outbound language-model call (the call
flag of the model is `false`, and the conclusion holds for every possible
outcome `apiResult` of the external call, so the result does not depend
on it). -/
theorem explain_no_answer_short_circuit (bundle : CitationBundle)
    (apiResult : Except String String)
    (h : bundle.has_answer = false ∨ bundle.results = []) :
    explain bundle apiResult = (noAnswerText, false) := by
  unfold explain
  rw [if_pos h]

theorem explain_no_answer_short_circuit_witness :
    ((⟨"q", 5, none, false, []⟩ : CitationBundle).has_answer = false ∨
     (⟨"q", 5, none, false, []⟩ : CitationBundle).results = []) ∧
    explain ⟨"q", 5, none, false, []⟩ (Except.ok "irrelevant") =
      (noAnswerText, false) :=
  ⟨Or.inl rfl, explain_no_answer_short_circuit _ _ (Or.inl rfl)⟩

/-- Claim C8: for every citation bundle with `has_answer` true and
non-empty results, if the outbound call raises (modelled by
`Except.error e` carrying the exception text), `explain` returns the
string Error generating explanation: followed by the failure text.
`explain` is a total Lean function into `String × Bool`, so it always
returns a string and never raises. -/
theorem explain_api_failure_degrades (bundle : CitationBundle) (e : String)
    (h1 : bundle.has_answer = true) (h2 : bundle.results ≠ []) :
    explain bundle (Except.error e) =
      ("Error generating explanation: " ++ e, true) := by
  have hcond : ¬(bundle.has_answer = false ∨ bundle.results = []) := by
    rintro (hc | hc)
    · rw [h1] at hc; exact Bool.noConfusion hc
    · exact h2 hc
  unfold explain
  rw [if_neg hcond]

theorem explain_api_failure_degrades_witness :
    ((⟨"q", 5, none, true, [⟨1, "Al-Fatihah", 1, "t", "tr", 1, []⟩]⟩ :
        CitationBundle).has_answer = true ∧
     (⟨"q", 5, none, true, [⟨1, "Al-Fatihah", 1, "t", "tr", 1, []⟩]⟩ :
        CitationBundle).results ≠ []) ∧
    explain ⟨"q", 5, none, true, [⟨1, "Al-Fatihah", 1, "t", "tr", 1, []⟩]⟩
      (Except.error "boom") =
      ("Error generating explanation: " ++ "boom", true) :=
  ⟨⟨rfl, List.cons_ne_nil _ _⟩,
   explain_api_failure_degrades _ _ rfl (List.cons_ne_nil _ _)⟩

/-- Claim C7: `validate_password` accepts a password exactly when it has
at least 6 characters and its UTF-8 encoding is at most 72 bytes; in
particular the concrete 25-character password of twenty-four 3-byte
characters plus one ASCII character has UTF-8 length 73 and is
rejected. -/
theorem validate_password_boundary :
    (∀ v : String, validate_password v = Except.ok v ↔
      6 ≤ v.length ∧ utf8ByteLength v ≤ 72) ∧
    (String.mk (List.replicate 24 '€' ++ ['a'])).length = 25 ∧
    utf8ByteLength (String.mk (List.replicate 24 '€' ++ ['a'])) = 73 ∧
    validate_password (String.mk (List.replicate 24 '€' ++ ['a'])) =
      Except.error "Password is too long (maximum 72 bytes/characters)" := by
  refine ⟨?_, by decide, by decide, rfl⟩
  intro v
  unfold validate_password
  split_ifs with h1 h2
  · simp only [reduceCtorEq, false_iff, not_and, not_le]
    omega
  · simp only [reduceCtorEq, false_iff, not_and, not_le]
    omega
  · simp only [Except.ok.injEq, true_iff]
    omega

theorem validate_password_boundary_witness :
    validate_password "abcdef" = Except.ok "abcdef" :=
  (validate_password_boundary.1 "abcdef").mpr ⟨by decide, by decide⟩

/-- Claim C10: on a cache hit the query endpoint responds from the cached
value, leaves the database untouched and does not invoke the
orchestration service (no retrieval, no language-model call); on a cache
miss the database is unchanged when the orchestration fails or the caller
is anonymous, and gains exactly one history row (built from the request
query, the answer and the serialized citations) when the caller is
authenticated - so history rows are written only on the cache-miss
path. -/
theorem query_quran_cache_hit_frame (req : QueryRequest) (c : QueryResponse)
    (orch : Except String OrchestrationResult) (user : Option Int)
    (db : List HistoryRow) (createdAt : Int) (e : String)
    (r : OrchestrationResult) (uid : Int) :
    query_quran req (some c) orch user db createdAt =
      (Except.ok ⟨c.query, c.answer, c.citations, c.has_answer,
        c.processing_time⟩, db, false) ∧
    (query_quran req none (Except.error e) user db createdAt).2.1 = db ∧
    (query_quran req none (Except.ok r) none db createdAt).2.1 = db ∧
    (query_quran req none (Except.ok r) (some uid) db createdAt).2.1 =
      db ++ [⟨some uid, req.query, r.answer, some (citationsDump r.citations),
        createdAt⟩] :=
  ⟨rfl, rfl, rfl, rfl⟩

/-- Claim C4: `retrieve_citation_bundle` sets `has_answer` exactly when
the results list is non-empty, and for a whitespace-only (or empty) query
the bundle is the empty-results bundle with `has_answer` false,
independently of what the index would have answered (so the index is not
consulted: the result is the same for any two index responses `hits`,
`hits'`). -/
theorem retrieve_citation_bundle_has_answer (metadata : List Verse)
    (hits hits' : List (Rat × Int)) (query : String) (k : Int)
    (thr : Option Rat) (window : Int) :
    ((retrieve_citation_bundle metadata hits query k thr window).has_answer =
        true ↔
      (retrieve_citation_bundle metadata hits query k thr window).results ≠ []) ∧
    (pyStrip query = "" →
      retrieve_citation_bundle metadata hits query k thr window =
        ⟨query, k, thr, false, []⟩ ∧
      retrieve_citation_bundle metadata hits query k thr window =
        retrieve_citation_bundle metadata hits' query k thr window) := by
  constructor
  · simp [retrieve_citation_bundle, List.length_pos]
  · intro hblank
    have hsearch : ∀ h : List (Rat × Int),
        search metadata h query thr true = [] := by
      intro h
      unfold search
      rw [if_pos (Or.inr hblank)]
    constructor
    · simp [retrieve_citation_bundle, search_with_context, hsearch]
    · simp [retrieve_citation_bundle, search_with_context, hsearch]

theorem retrieve_citation_bundle_has_answer_witness :
    pyStrip " " = "" ∧
    retrieve_citation_bundle [] [] " " 5 none 1 = ⟨" ", 5, none, false, []⟩ :=
  ⟨rfl, ((retrieve_citation_bundle_has_answer [] [] [] " " 5 none 1).2 rfl).1⟩

lemma score_hitToResult {metadata : List Verse} {h : Rat × Int}
    {r : ScoredVerse} (hr : hitToResult metadata h = some r) :
    r.score = h.1 := by
  unfold hitToResult at hr
  split at hr
  · cases hr
    rfl
  · cases hr

lemma pairwise_buildResults (metadata : List Verse) (hits : List (Rat × Int))
    (h : hits.Pairwise (fun a b => b.1 ≤ a.1)) :
    (buildResults metadata hits).Pairwise (fun a b => b.score ≤ a.score) := by
  induction hits with
  | nil => simp [buildResults]
  | cons hd tl ih =>
    rw [List.pairwise_cons] at h
    unfold buildResults at *
    rw [List.filterMap_cons]
    cases hh : hitToResult metadata hd with
    | none => exact ih h.2
    | some r =>
      rw [List.pairwise_cons]
      refine ⟨?_, ih h.2⟩
      intro s hs
      rw [List.mem_filterMap] at hs
      obtain ⟨b, hb, hbs⟩ := hs
      rw [score_hitToResult hbs, score_hitToResult hh]
      exact h.1 b hb

lemma search_some_eq (metadata : List Verse) (hits : List (Rat × Int))
    (query : String) (t : Rat) (return_no_answer : Bool)
    (hcond : ¬(query = "" ∨ pyStrip query = "")) :
    search metadata hits query (some t) return_no_answer =
      (if 1 ≤ ((buildResults metadata hits).filter
          (fun r => t ≤ r.score)).length
       then (buildResults metadata hits).filter (fun r => t ≤ r.score)
       else if return_no_answer then [] else buildResults metadata hits) := by
  unfold search
  rw [if_neg hcond]

/-- Claim C2: for a non-blank query and a present threshold, `search`
returns exactly the threshold-surviving subset of the top-k results
(`buildResults` of the index response) whenever that subset is non-empty
(for either value of `return_no_answer`); the output is in descending
score order whenever the index response is (the index returns descending
scores); and when no result survives, the default (`return_no_answer`
true) yields the empty list while opting into best-effort fallback
(`return_no_answer` false) yields the unfiltered top-k. -/
theorem search_threshold_filtering (metadata : List Verse)
    (hits : List (Rat × Int)) (query : String) (t : Rat)
    (return_no_answer : Bool) (hq : pyStrip query ≠ "") :
    ((buildResults metadata hits).filter (fun r => t ≤ r.score) ≠ [] →
      search metadata hits query (some t) return_no_answer =
        (buildResults metadata hits).filter (fun r => t ≤ r.score)) ∧
    (hits.Pairwise (fun a b => b.1 ≤ a.1) →
      (search metadata hits query (some t) return_no_answer).Pairwise
        (fun a b => b.score ≤ a.score)) ∧
    ((buildResults metadata hits).filter (fun r => t ≤ r.score) = [] →
      search metadata hits query (some t) true = [] ∧
      search metadata hits query (some t) false = buildResults metadata hits) := by
  have hcond : ¬(query = "" ∨ pyStrip query = "") := by
    rintro (hc | hc)
    · exact hq (by rw [hc]; rfl)
    · exact hq hc
  refine ⟨?_, ?_, ?_⟩
  · intro hne
    rw [search_some_eq metadata hits query t return_no_answer hcond,
      if_pos (show 1 ≤ ((buildResults metadata hits).filter
        (fun r => t ≤ r.score)).length from List.length_pos.mpr hne)]
  · intro hsorted
    rw [search_some_eq metadata hits query t return_no_answer hcond]
    have hall := pairwise_buildResults metadata hits hsorted
    split_ifs
    · exact hall.filter _
    · exact List.Pairwise.nil
    · exact hall
  · intro hnil
    constructor
    · rw [search_some_eq metadata hits query t true hcond, hnil]
      simp
    · rw [search_some_eq metadata hits query t false hcond, hnil]
      simp

theorem search_threshold_filtering_witness :
    pyStrip "faith" ≠ "" ∧
    ((buildResults
        [⟨1, "S", 5, 1, "t1", "r1"⟩, ⟨1, "S", 5, 2, "t2", "r2"⟩,
         ⟨1, "S", 5, 3, "t3", "r3"⟩, ⟨1, "S", 5, 4, "t4", "r4"⟩,
         ⟨1, "S", 5, 5, "t5", "r5"⟩]
        [(⟨9, 10, by norm_num, by norm_num⟩, 0),
         (⟨4, 5, by norm_num, by norm_num⟩, 1),
         (⟨2, 5, by norm_num, by norm_num⟩, 2),
         (⟨3, 10, by norm_num, by norm_num⟩, 3),
         (⟨1, 10, by norm_num, by norm_num⟩, 4)]).filter
      (fun r => (⟨1, 2, by norm_num, by norm_num⟩ : Rat) ≤ r.score) ≠ []) ∧
    search
        [⟨1, "S", 5, 1, "t1", "r1"⟩, ⟨1, "S", 5, 2, "t2", "r2"⟩,
         ⟨1, "S", 5, 3, "t3", "r3"⟩, ⟨1, "S", 5, 4, "t4", "r4"⟩,
         ⟨1, "S", 5, 5, "t5", "r5"⟩]
        [(⟨9, 10, by norm_num, by norm_num⟩, 0),
         (⟨4, 5, by norm_num, by norm_num⟩, 1),
         (⟨2, 5, by norm_num, by norm_num⟩, 2),
         (⟨3, 10, by norm_num, by norm_num⟩, 3),
         (⟨1, 10, by norm_num, by norm_num⟩, 4)]
        "faith" (some ⟨1, 2, by norm_num, by norm_num⟩) true =
      [⟨1, "S", 5, 1, "t1", "r1", ⟨9, 10, by norm_num, by norm_num⟩⟩,
       ⟨1, "S", 5, 2, "t2", "r2", ⟨4, 5, by norm_num, by norm_num⟩⟩] := by
  refine ⟨by decide, by decide, ?_⟩
  rw [(search_threshold_filtering _ _ "faith" _ true (by decide)).1 (by decide)]
  decide

/-- Claim C9: the history endpoint rejects unauthenticated callers with
401, and for an authenticated caller returns rows drawn exclusively from
that caller's own rows (never another user's, for any skip and limit),
ordered by creation timestamp descending, skipping the first `skip` rows
of that ordering and returning at most `limit` rows. -/
theorem get_query_history_spec (db : List HistoryRow) (skip limit : Nat)
    (uid : Int) :
    get_query_history none db skip limit =
      Except.error ⟨401, "Authentication required"⟩ ∧
    ∃ all : List HistoryRow,
      all.Perm (db.filter (fun r => r.user_id = some uid)) ∧
      all.Pairwise (fun a b => b.created_at ≤ a.created_at) ∧
      get_query_history (some uid) db skip limit =
        Except.ok ((all.drop skip).take limit) ∧
      (∀ row ∈ (all.drop skip).take limit, row.user_id = some uid) ∧
      ((all.drop skip).take limit).length ≤ limit ∧
      ((all.drop skip).take limit).Pairwise
        (fun a b => b.created_at ≤ a.created_at) := by
  constructor
  · rfl
  refine ⟨(db.filter (fun r : HistoryRow => r.user_id = some uid)).insertionSort
      (fun a b => b.created_at ≤ a.created_at),
    List.perm_insertionSort _ _, List.sorted_insertionSort _ _, rfl, ?_, ?_, ?_⟩
  · intro row hrow
    have h1 : row ∈ (db.filter
        (fun r : HistoryRow => r.user_id = some uid)).insertionSort
        (fun a b => b.created_at ≤ a.created_at) :=
      List.mem_of_mem_drop (List.mem_of_mem_take hrow)
    have h2 : row ∈ db.filter (fun r : HistoryRow => r.user_id = some uid) :=
      (List.mem_insertionSort _).mp h1
    simpa using (List.mem_filter.mp h2).2
  · exact List.length_take_le _ _
  · refine List.Pairwise.sublist ?_ (List.sorted_insertionSort
      (fun a b : HistoryRow => b.created_at ≤ a.created_at)
      (db.filter (fun r : HistoryRow => r.user_id = some uid)))
    exact (List.take_sublist _ _).trans (List.drop_sublist _ _)

theorem get_query_history_spec_witness :
    get_query_history none [] 0 50 =
      Except.error ⟨401, "Authentication required"⟩ :=
  (get_query_history_spec [] 0 50 0).1

/-- Claim C5 counterexample: configuring the origins string with
`http://localhost:3000` listed twice yields a derived list containing it
twice, so the derived list does not always contain it exactly once. -/
theorem cors_origins_duplicate_counterexample :
    (cors_origins_list
        "http://localhost:3000,http://localhost:3000").count
      "http://localhost:3000" = 2 := by
  decide

/-- Claim C5 (amended): the derived origins list always contains each of
the two development origins at least once - exactly once unless the
configured entries themselves already list that origin more than once, in
which case its multiplicity is the configured one (the count is the
maximum of 1 and the configured count); and the parsed configured entries
are preserved as a prefix of the derived list, in order. -/
lemma corsAppendIfAbsent_count_self (o : String) (l : List String) :
    (corsAppendIfAbsent o l).count o = max 1 (l.count o) := by
  unfold corsAppendIfAbsent
  split_ifs with h
  · have := List.count_pos_iff.mpr h
    omega
  · rw [List.count_append, List.count_eq_zero.mpr h]
    simp

lemma corsAppendIfAbsent_count_other (o x : String) (l : List String)
    (hne : x ≠ o) : (corsAppendIfAbsent o l).count x = l.count x := by
  unfold corsAppendIfAbsent
  split_ifs with h
  · rfl
  · rw [List.count_append]
    simp [List.count_singleton', hne]

lemma corsAppendIfAbsent_prefix (o : String) (l : List String) :
    ∃ ap, corsAppendIfAbsent o l = l ++ ap := by
  unfold corsAppendIfAbsent
  split_ifs
  · exact ⟨[], by simp⟩
  · exact ⟨[o], rfl⟩

theorem cors_origins_amended (cors : String) :
    (cors_origins_list cors).count "http://localhost:3000" =
      max 1 ((corsParsedEntries cors).count "http://localhost:3000") ∧
    (cors_origins_list cors).count "http://127.0.0.1:3000" =
      max 1 ((corsParsedEntries cors).count "http://127.0.0.1:3000") ∧
    ∃ appended, cors_origins_list cors = corsParsedEntries cors ++ appended := by
  by_cases hc : cors = ""
  · subst hc
    refine ⟨by decide, by decide,
      ⟨["http://localhost:3000", "http://127.0.0.1:3000"], by decide⟩⟩
  · unfold cors_origins_list corsParsedEntries
    rw [if_neg hc, if_neg hc]
    refine ⟨?_, ?_, ?_⟩
    · unfold corsWithDefaults
      rw [corsAppendIfAbsent_count_other _ _ _ (by decide),
        corsAppendIfAbsent_count_self]
    · unfold corsWithDefaults
      rw [corsAppendIfAbsent_count_self,
        corsAppendIfAbsent_count_other _ _ _ (by decide)]
    · obtain ⟨a1, h1⟩ := corsAppendIfAbsent_prefix "http://localhost:3000"
        (((pySplit ',' cors).map pyStrip).filter (fun s => s ≠ ""))
      obtain ⟨a2, h2⟩ := corsAppendIfAbsent_prefix "http://127.0.0.1:3000"
        (corsAppendIfAbsent "http://localhost:3000"
          (((pySplit ',' cors).map pyStrip).filter (fun s => s ≠ "")))
      refine ⟨a1 ++ a2, ?_⟩
      unfold corsWithDefaults
      rw [h2, h1, List.append_assoc]

/-- Claim C3: `add_context_window` returns a copy of the input result (all
base fields unchanged, so the input is not mutated) carrying a context
list that contains exactly the (projections of the) verses of the same
chapter whose verse number lies in the window
`[max(1, a - window), min(max verse number present in the chapter, a + window)]`
excluding the result verse number itself, sorted ascending by verse
number.  The hypothesis that the chapter occurs in the metadata makes
the stated upper bound the maximum verse number present in the
chapter. -/
theorem add_context_window_spec (metadata : List Verse) (result : ScoredVerse)
    (window : Int)
    (_hch : metadata.filter (fun v => v.surah_number = result.surah_number) ≠ []) :
    (∀ c : CtxVerse,
      c ∈ (add_context_window metadata result window).context ↔
        ∃ v ∈ metadata, v.surah_number = result.surah_number ∧
          max 1 (result.ayah_number - window) ≤ v.ayah_number ∧
          v.ayah_number ≤ min
            (((metadata.filter
                (fun v => v.surah_number = result.surah_number)).map
              (fun v => v.ayah_number)).max?.getD result.ayah_number)
            (result.ayah_number + window) ∧
          v.ayah_number ≠ result.ayah_number ∧ c = toCtxVerse v) ∧
    (add_context_window metadata result window).context.Pairwise
      (fun a b => a.ayah_number ≤ b.ayah_number) ∧
    (add_context_window metadata result window).surah_number =
      result.surah_number ∧
    (add_context_window metadata result window).surah_name_english =
      result.surah_name_english ∧
    (add_context_window metadata result window).total_ayahs =
      result.total_ayahs ∧
    (add_context_window metadata result window).ayah_number =
      result.ayah_number ∧
    (add_context_window metadata result window).text_simple =
      result.text_simple ∧
    (add_context_window metadata result window).translation_en_yusufali =
      result.translation_en_yusufali ∧
    (add_context_window metadata result window).score = result.score := by
  have hctx : (add_context_window metadata result window).context =
      (((metadata.filter
          (fun v => v.surah_number = result.surah_number)).filter
        (fun v => max 1 (result.ayah_number - window) ≤ v.ayah_number ∧
          v.ayah_number ≤ min
            (((metadata.filter
                (fun v => v.surah_number = result.surah_number)).map
              (fun v => v.ayah_number)).max?.getD result.ayah_number)
            (result.ayah_number + window) ∧
          v.ayah_number ≠ result.ayah_number)).map toCtxVerse).insertionSort
        (fun a b => a.ayah_number ≤ b.ayah_number) := rfl
  refine ⟨?_, ?_, rfl, rfl, rfl, rfl, rfl, rfl, rfl⟩
  · intro c
    rw [hctx]
    constructor
    · intro hc
      simp only [List.mem_insertionSort, List.mem_map, List.mem_filter,
        decide_eq_true_eq] at hc
      obtain ⟨v, ⟨⟨hvm, hvs⟩, h1, h2, h3⟩, hveq⟩ := hc
      exact ⟨v, hvm, hvs, h1, h2, h3, hveq.symm⟩
    · rintro ⟨v, hvm, hvs, h1, h2, h3, hceq⟩
      simp only [List.mem_insertionSort, List.mem_map, List.mem_filter,
        decide_eq_true_eq]
      exact ⟨v, ⟨⟨hvm, hvs⟩, h1, h2, h3⟩, hceq.symm⟩
  · rw [hctx]
    exact List.sorted_insertionSort _ _

theorem add_context_window_spec_witness :
    ([⟨1, "S", 10, 1, "t", "r"⟩, ⟨1, "S", 10, 2, "t", "r"⟩,
      ⟨1, "S", 10, 3, "t", "r"⟩, ⟨1, "S", 10, 4, "t", "r"⟩,
      ⟨1, "S", 10, 5, "t", "r"⟩, ⟨1, "S", 10, 6, "t", "r"⟩,
      ⟨1, "S", 10, 7, "t", "r"⟩, ⟨1, "S", 10, 8, "t", "r"⟩,
      ⟨1, "S", 10, 9, "t", "r"⟩, ⟨1, "S", 10, 10, "t", "r"⟩] :
        List Verse).filter
      (fun v => v.surah_number =
        (⟨1, "S", 10, 5, "t", "r", 1⟩ : ScoredVerse).surah_number) ≠ [] ∧
    (add_context_window
      [⟨1, "S", 10, 1, "t", "r"⟩, ⟨1, "S", 10, 2, "t", "r"⟩,
       ⟨1, "S", 10, 3, "t", "r"⟩, ⟨1, "S", 10, 4, "t", "r"⟩,
       ⟨1, "S", 10, 5, "t", "r"⟩, ⟨1, "S", 10, 6, "t", "r"⟩,
       ⟨1, "S", 10, 7, "t", "r"⟩, ⟨1, "S", 10, 8, "t", "r"⟩,
       ⟨1, "S", 10, 9, "t", "r"⟩, ⟨1, "S", 10, 10, "t", "r"⟩]
      ⟨1, "S", 10, 5, "t", "r", 1⟩ 1).context.Pairwise
      (fun a b => a.ayah_number ≤ b.ayah_number) :=
  ⟨by decide,
   (add_context_window_spec _ ⟨1, "S", 10, 5, "t", "r", 1⟩ 1 (by decide)).2.1⟩

lemma digitVal_digitsRevF : ∀ f n : Nat, n < f →
    digitVal (digitsRevF f n) = n := by
  intro f
  induction f with
  | zero => intro n hn; exact absurd hn (Nat.not_lt_zero n)
  | succ f ih =>
    intro n hn
    unfold digitsRevF
    by_cases h : n < 10
    · rw [if_pos h]
      simp [digitVal]
    · rw [if_neg h]
      have hd : n / 10 < n := Nat.div_lt_self (by omega) (by omega)
      simp only [digitVal]
      rw [ih (n / 10) (by omega)]
      omega

lemma digitsRev_inj {a b : Nat} (h : digitsRev a = digitsRev b) : a = b := by
  have h2 := congrArg digitVal h
  unfold digitsRev at h2
  rw [digitVal_digitsRevF (a + 1) a (Nat.lt_succ_self a),
    digitVal_digitsRevF (b + 1) b (Nat.lt_succ_self b)] at h2
  exact h2

lemma digitsRevF_lt10 : ∀ f n : Nat, ∀ d ∈ digitsRevF f n, d < 10 := by
  intro f
  induction f with
  | zero => intro n d hd; simp [digitsRevF] at hd
  | succ f ih =>
    intro n d hd
    unfold digitsRevF at hd
    by_cases h : n < 10
    · rw [if_pos h] at hd
      simp at hd
      omega
    · rw [if_neg h] at hd
      rcases List.mem_cons.mp hd with h1 | h1
      · subst h1
        omega
      · exact ih _ d h1

lemma digitsRevF_ne_nil (f n : Nat) (hf : 0 < f) : digitsRevF f n ≠ [] := by
  cases f with
  | zero => omega
  | succ f =>
    unfold digitsRevF
    split_ifs <;> simp

lemma digitChar_inj10 : ∀ d1, d1 < 10 → ∀ d2, d2 < 10 →
    Nat.digitChar d1 = Nat.digitChar d2 → d1 = d2 := by decide

lemma digitChar_not_special : ∀ d, d < 10 →
    Nat.digitChar d ≠ '-' ∧ Nat.digitChar d ≠ '/' ∧ Nat.digitChar d ≠ 'N' := by
  decide

lemma map_digitChar_inj : ∀ l1 l2 : List Nat, (∀ d ∈ l1, d < 10) →
    (∀ d ∈ l2, d < 10) → l1.map Nat.digitChar = l2.map Nat.digitChar →
    l1 = l2 := by
  intro l1
  induction l1 with
  | nil =>
    intro l2 _ _ h
    cases l2 with
    | nil => rfl
    | cons e l2t => simp at h
  | cons d lt ih =>
    intro l2 hb1 hb2 h
    cases l2 with
    | nil => simp at h
    | cons e l2t =>
      simp only [List.map_cons, List.cons.injEq] at h
      have hde : d = e :=
        digitChar_inj10 d (hb1 d (by simp)) e (hb2 e (by simp)) h.1
      rw [hde,
        ih l2t (fun x hx => hb1 x (by simp [hx]))
          (fun x hx => hb2 x (by simp [hx])) h.2]

lemma natRepr_inj {a b : Nat} (h : natRepr a = natRepr b) : a = b := by
  unfold natRepr at h
  have h2 := map_digitChar_inj _ _
    (fun d hd => digitsRevF_lt10 _ _ d (List.mem_reverse.mp hd))
    (fun d hd => digitsRevF_lt10 _ _ d (List.mem_reverse.mp hd)) h
  exact digitsRev_inj (List.reverse_inj.mp h2)

lemma natRepr_chars {n : Nat} {c : Char} (hc : c ∈ natRepr n) :
    ∃ d, d < 10 ∧ c = Nat.digitChar d := by
  unfold natRepr at hc
  rw [List.mem_map] at hc
  obtain ⟨d, hd, hcd⟩ := hc
  exact ⟨d, digitsRevF_lt10 _ _ d (List.mem_reverse.mp hd), hcd.symm⟩

lemma natRepr_no_dash {n : Nat} : '-' ∉ natRepr n := by
  intro h
  obtain ⟨d, hd, hc⟩ := natRepr_chars h
  exact (digitChar_not_special d hd).1 hc.symm

lemma natRepr_no_slash {n : Nat} : '/' ∉ natRepr n := by
  intro h
  obtain ⟨d, hd, hc⟩ := natRepr_chars h
  exact (digitChar_not_special d hd).2.1 hc.symm

lemma intRepr_inj {a b : Int} (h : intRepr a = intRepr b) : a = b := by
  unfold intRepr at h
  split_ifs at h with h1 h2 h2
  · injection h with _ h'
    have := natRepr_inj h'
    omega
  · exact absurd (h ▸ List.mem_cons_self '-' (natRepr (-a).toNat))
      natRepr_no_dash
  · exact absurd (h.symm ▸ List.mem_cons_self '-' (natRepr (-b).toNat))
      natRepr_no_dash
  · have := natRepr_inj h
    omega

lemma intRepr_no_slash {i : Int} : '/' ∉ intRepr i := by
  unfold intRepr
  split_ifs
  · intro h
    rcases List.mem_cons.mp h with h1 | h1
    · exact absurd h1 (by decide)
    · exact natRepr_no_slash h1
  · exact natRepr_no_slash

lemma append_slash_split : ∀ (a : List Char) (b c d : List Char),
    '/' ∉ a → '/' ∉ c → a ++ '/' :: b = c ++ '/' :: d → a = c ∧ b = d := by
  intro a
  induction a with
  | nil =>
    intro b c d _ hc h
    cases c with
    | nil =>
      simp only [List.nil_append, List.cons.injEq, true_and] at h
      exact ⟨rfl, h⟩
    | cons y ct =>
      simp only [List.nil_append, List.cons_append, List.cons.injEq] at h
      exact absurd (h.1 ▸ List.mem_cons_self y ct) hc
  | cons x at' ih =>
    intro b c d ha hc h
    cases c with
    | nil =>
      simp only [List.cons_append, List.nil_append, List.cons.injEq] at h
      exact absurd (h.1 ▸ List.mem_cons_self x at') ha
    | cons y ct =>
      simp only [List.cons_append, List.cons.injEq] at h
      obtain ⟨hxy, htl⟩ := h
      obtain ⟨h1, h2⟩ := ih b ct d (fun hm => ha (List.mem_cons_of_mem _ hm))
        (fun hm => hc (List.mem_cons_of_mem _ hm)) htl
      exact ⟨by rw [hxy, h1], h2⟩

lemma slash_mem_thrRepr_some (q : Rat) : '/' ∈ thrRepr (some q) := by
  unfold thrRepr
  exact List.mem_append.mpr (Or.inr (List.mem_cons_self _ _))

lemma thrRepr_inj {t1 t2 : Option Rat} (h : thrRepr t1 = thrRepr t2) :
    t1 = t2 := by
  match t1, t2 with
  | none, none => rfl
  | none, some q =>
    have hs := slash_mem_thrRepr_some q
    rw [← h] at hs
    exact absurd hs (by decide)
  | some q, none =>
    have hs := slash_mem_thrRepr_some q
    rw [h] at hs
    exact absurd hs (by decide)
  | some q1, some q2 =>
    unfold thrRepr at h
    obtain ⟨h1, h2⟩ := append_slash_split _ _ _ _ intRepr_no_slash
      intRepr_no_slash h
    exact congrArg some (Rat.ext (intRepr_inj h1) (natRepr_inj h2))

lemma keyChars_query_inj {q1 q2 : String} {k : Int} {t : Option Rat}
    {w : Int} (hne : q1 ≠ q2) : keyChars q1 k t w ≠ keyChars q2 k t w := by
  intro h
  unfold keyChars at h
  have h2 := List.append_cancel_right h
  exact hne (congrArg String.mk h2)

lemma keyChars_k_inj {q : String} {k1 k2 : Int} {t : Option Rat} {w : Int}
    (hne : k1 ≠ k2) : keyChars q k1 t w ≠ keyChars q k2 t w := by
  intro h
  unfold keyChars at h
  have h1 := List.append_cancel_left h
  have h2 : intRepr k1 ++ ':' :: (thrRepr t ++ ':' :: intRepr w) =
      intRepr k2 ++ ':' :: (thrRepr t ++ ':' :: intRepr w) := by
    simpa using h1
  exact hne (intRepr_inj (List.append_cancel_right h2))

lemma keyChars_t_inj {q : String} {k : Int} {t1 t2 : Option Rat} {w : Int}
    (hne : t1 ≠ t2) : keyChars q k t1 w ≠ keyChars q k t2 w := by
  intro h
  unfold keyChars at h
  have h1 := List.append_cancel_left h
  have h2 : intRepr k ++ ':' :: (thrRepr t1 ++ ':' :: intRepr w) =
      intRepr k ++ ':' :: (thrRepr t2 ++ ':' :: intRepr w) := by
    simpa using h1
  have h3 := List.append_cancel_left h2
  have h4 : thrRepr t1 ++ ':' :: intRepr w =
      thrRepr t2 ++ ':' :: intRepr w := by
    simpa using h3
  exact hne (thrRepr_inj (List.append_cancel_right h4))

lemma keyChars_w_inj {q : String} {k : Int} {t : Option Rat} {w1 w2 : Int}
    (hne : w1 ≠ w2) : keyChars q k t w1 ≠ keyChars q k t w2 := by
  intro h
  unfold keyChars at h
  have h1 := List.append_cancel_left h
  have h2 : intRepr k ++ ':' :: (thrRepr t ++ ':' :: intRepr w1) =
      intRepr k ++ ':' :: (thrRepr t ++ ':' :: intRepr w2) := by
    simpa using h1
  have h3 := List.append_cancel_left h2
  have h4 : thrRepr t ++ ':' :: intRepr w1 =
      thrRepr t ++ ':' :: intRepr w2 := by
    simpa using h3
  have h5 := List.append_cancel_left h4
  exact hne (intRepr_inj (by simpa using h5))

lemma md5Words_lt (msg : List Nat) :
    (md5Words msg).1 < 4294967296 ∧ (md5Words msg).2.1 < 4294967296 ∧
      (md5Words msg).2.2.1 < 4294967296 ∧ (md5Words msg).2.2.2 < 4294967296 := by
  unfold md5Words
  refine ⟨?_, ?_, ?_, ?_⟩ <;> exact Nat.mod_lt _ (by norm_num)

/-- Claim C6 counterexample: the claimed digest-level sensitivity cannot
hold - the derived keys live in the finite space of MD5 digests while
queries range over an infinite set, so two different queries (with all
other components fixed) must collide.  This proves the negation of the
universally quantified sensitivity statement. -/
theorem cache_key_digest_not_injective :
    ¬ ∀ (q1 q2 : String) (k : Int) (t : Option Rat) (w : Int),
        q1 ≠ q2 → redisCacheKey q1 k t w ≠ redisCacheKey q2 k t w := by
  intro hinj
  obtain ⟨n1, n2, hne, heq⟩ := Finite.exists_ne_map_eq_of_infinite
    (fun n : Nat =>
      ((⟨(md5Words (strBytes
            (keyString (String.mk (List.replicate n 'a')) 5 none 1))).1,
          (md5Words_lt _).1⟩ : Fin 4294967296),
       (⟨(md5Words (strBytes
            (keyString (String.mk (List.replicate n 'a')) 5 none 1))).2.1,
          (md5Words_lt _).2.1⟩ : Fin 4294967296),
       (⟨(md5Words (strBytes
            (keyString (String.mk (List.replicate n 'a')) 5 none 1))).2.2.1,
          (md5Words_lt _).2.2.1⟩ : Fin 4294967296),
       (⟨(md5Words (strBytes
            (keyString (String.mk (List.replicate n 'a')) 5 none 1))).2.2.2,
          (md5Words_lt _).2.2.2⟩ : Fin 4294967296)))
  have hqs : String.mk (List.replicate n1 'a') ≠
      String.mk (List.replicate n2 'a') := by
    intro hs
    apply hne
    have hlen := congrArg (fun s : String => s.data.length) hs
    simpa using hlen
  have hw1 := congrArg (fun p : Fin 4294967296 × Fin 4294967296 ×
    Fin 4294967296 × Fin 4294967296 => (p.1 : Nat)) heq
  have hw2 := congrArg (fun p : Fin 4294967296 × Fin 4294967296 ×
    Fin 4294967296 × Fin 4294967296 => (p.2.1 : Nat)) heq
  have hw3 := congrArg (fun p : Fin 4294967296 × Fin 4294967296 ×
    Fin 4294967296 × Fin 4294967296 => (p.2.2.1 : Nat)) heq
  have hw4 := congrArg (fun p : Fin 4294967296 × Fin 4294967296 ×
    Fin 4294967296 × Fin 4294967296 => (p.2.2.2 : Nat)) heq
  simp only at hw1 hw2 hw3 hw4
  have hwords : md5Words (strBytes
      (keyString (String.mk (List.replicate n1 'a')) 5 none 1)) =
    md5Words (strBytes
      (keyString (String.mk (List.replicate n2 'a')) 5 none 1)) :=
    Prod.ext hw1 (Prod.ext hw2 (Prod.ext hw3 hw4))
  apply hinj _ _ 5 none 1 hqs
  unfold redisCacheKey generate_cache_key md5Hex
  rw [hwords]

set_option maxRecDepth 100000 in
/-- Claim C6 (amended): cache-key derivation is deterministic (equal
tuples give equal keys), and sensitive to every input at the hash-input
level: two tuples differing in any single one of the four components
always produce different colon-joined key strings (different MD5 inputs).
Digest-level distinctness cannot hold universally (see the
counterexample), but it does hold for the concrete example pair of the
specification, queries equal and thresholds absent versus one half. -/
theorem cache_key_amended :
    (∀ (q1 q2 : String) (k1 k2 : Int) (t1 t2 : Option Rat) (w1 w2 : Int),
      q1 = q2 → k1 = k2 → t1 = t2 → w1 = w2 →
        redisCacheKey q1 k1 t1 w1 = redisCacheKey q2 k2 t2 w2) ∧
    (∀ (q1 q2 : String) (k : Int) (t : Option Rat) (w : Int), q1 ≠ q2 →
      keyString q1 k t w ≠ keyString q2 k t w) ∧
    (∀ (q : String) (k1 k2 : Int) (t : Option Rat) (w : Int), k1 ≠ k2 →
      keyString q k1 t w ≠ keyString q k2 t w) ∧
    (∀ (q : String) (k : Int) (t1 t2 : Option Rat) (w : Int), t1 ≠ t2 →
      keyString q k t1 w ≠ keyString q k t2 w) ∧
    (∀ (q : String) (k : Int) (t : Option Rat) (w1 w2 : Int), w1 ≠ w2 →
      keyString q k t w1 ≠ keyString q k t w2) ∧
    redisCacheKey "faith" 5 none 1 ≠
      redisCacheKey "faith" 5 (some ⟨1, 2, by norm_num, by norm_num⟩) 1 := by
  refine ⟨?_, ?_, ?_, ?_, ?_, by decide⟩
  · rintro q1 q2 k1 k2 t1 t2 w1 w2 rfl rfl rfl rfl
    rfl
  · intro q1 q2 k t w hne h
    exact keyChars_query_inj hne (congrArg String.data h)
  · intro q k1 k2 t w hne h
    exact keyChars_k_inj hne (congrArg String.data h)
  · intro q k t1 t2 w hne h
    exact keyChars_t_inj hne (congrArg String.data h)
  · intro q k t w1 w2 hne h
    exact keyChars_w_inj hne (congrArg String.data h)

theorem cache_key_amended_witness :
    ("alpha" : String) ≠ "beta" ∧
    keyString "alpha" 5 none 1 ≠ keyString "beta" 5 none 1 :=
  ⟨by decide, cache_key_amended.2.1 "alpha" "beta" 5 none 1 (by decide)⟩
